import Mathlib

/-!
Verification of the rncanopy-registry build and validation pipeline.

This development shallowly embeds `scripts/build-registry.js` and
`scripts/validate-registry.js`.  Source text is modelled as Lean
`String`/`List Char`; the regular-expression extractors of
`analyzeComponentFile` are modelled as dedicated character scanners that
follow the semantics of the concrete patterns used by the script
(matches are found left to right and scanning resumes after each match,
mirroring a global regex search; the import pattern is scanned per line
because the dot of the pattern does not cross newlines); the MD5 content
hasher is implemented in full; `JSON.stringify` (compact and 2-space
indented) is implemented over an inductive JSON value type; filesystem
contents are passed explicitly (an existence predicate on paths for the
validator, association lists of path and content for build outputs).
Machine 32-bit arithmetic in MD5 is Nat with explicit reduction mod 2^32.
Unicode-sensitive JavaScript details (toLowerCase, UTF-16 ordering) are
modelled per character, which coincides with JavaScript on the ASCII
inputs this repository processes.
-/

set_option maxRecDepth 100000
set_option maxHeartbeats 2000000

/-! ## Basic string utilities -/

/-- JavaScript whitespace class for the purposes of the patterns used by
the build script. -/
def isWsChar (c : Char) : Bool :=
  c == ' ' || c == '\t' || c == '\n' || c == '\r'

/-- Word characters, the class written as a range in the script patterns. -/
def isWordChar (c : Char) : Bool :=
  (('a' ≤ c && c ≤ 'z') || ('A' ≤ c && c ≤ 'Z') ||
   ('0' ≤ c && c ≤ '9') || c == '_')

/-- A single or a double quote character. -/
def isQuoteChar (c : Char) : Bool :=
  c == '\x27' || c == '"'

/-- Model of JavaScript `String.prototype.includes`. -/
def jsIncludesL (sub : List Char) : List Char → Bool
  | [] => sub.isPrefixOf ([] : List Char)
  | c :: t => sub.isPrefixOf (c :: t) || jsIncludesL sub t

/-- `content.includes(sub)` on strings. -/
def jsIncludes (content sub : String) : Bool :=
  jsIncludesL sub.toList content.toList

/-- Suffix of `l` just after the first occurrence of `pat`; `none` when
`pat` does not occur. -/
def dropAfterSub (pat : List Char) : List Char → Option (List Char)
  | [] => if pat.isEmpty then some [] else none
  | c :: t =>
    if pat.isPrefixOf (c :: t) then some ((c :: t).drop pat.length)
    else dropAfterSub pat t

/-- Model of JavaScript `String.prototype.replace` with a plain string
pattern: only the first occurrence is replaced. -/
def replaceFirstL (pat rep : List Char) : List Char → List Char
  | [] => []
  | c :: t =>
    if pat.isPrefixOf (c :: t) then rep ++ (c :: t).drop pat.length
    else c :: replaceFirstL pat rep t

/-- `s.replace(pat, rep)` for a non-empty string pattern. -/
def replaceFirstSub (s pat rep : String) : String :=
  if pat.toList.isEmpty then rep ++ s
  else String.mk (replaceFirstL pat.toList rep.toList s.toList)

/-- Insertion-order deduplication, the behaviour of feeding a list into a
JavaScript `Set` and spreading it back out. -/
def dedupFirstAux (seen : List String) : List String → List String
  | [] => []
  | x :: t =>
    if seen.contains x then dedupFirstAux seen t
    else x :: dedupFirstAux (x :: seen) t

/-- Deduplication keeping first occurrences. -/
def dedupFirst (l : List String) : List String :=
  dedupFirstAux [] l

/-- JavaScript lowercase conversion, per ASCII character. -/
def lowerStr (s : String) : String :=
  String.mk (s.toList.map Char.toLower)

/-- `s.startsWith(pre)`. -/
def strStartsWith (s pre : String) : Bool :=
  pre.toList.isPrefixOf s.toList

/-- `s.endsWith(suf)`. -/
def strEndsWith (s suf : String) : Bool :=
  suf.toList.isSuffixOf s.toList

/-! ## Global pattern scanning

`scanAllAux step fuel l` repeatedly tries `step` at every position of
`l`, left to right; when `step` matches it yields the captured value and
scanning resumes at the returned rest of the input, mirroring a global
regex search. -/

def scanAllAux {α : Type} (step : List Char → Option (α × List Char)) :
    Nat → List Char → List α
  | 0, _ => []
  | _ + 1, [] => []
  | fuel + 1, c :: t =>
    match step (c :: t) with
    | some (v, rest) => v :: scanAllAux step fuel rest
    | none => scanAllAux step fuel t

def scanAll {α : Type} (step : List Char → Option (α × List Char))
    (l : List Char) : List α :=
  scanAllAux step l.length l

/-! ## The import extractor

Pattern `import.*from\s+['"]([^'"]+)['"];?` scanned globally, with the
captured group re-extracted by `from\s+['"]([^'"]+)['"]`.  The dot does
not cross newlines, so the scan is per line; the capture is the first
quoted module path following `from` after the first `import` token of
the line (one import is recognised per line). -/

/-- Try to match `from` + whitespace + quoted module path at the head of
the input, returning the captured path. -/
def fromQuoteAt (l : List Char) : Option String :=
  if ("from".toList).isPrefixOf l then
    let r1 := l.drop 4
    match r1 with
    | c :: t =>
      if isWsChar c then
        let r2 := t.dropWhile isWsChar
        match r2 with
        | q :: t2 =>
          if isQuoteChar q then
            let lit := t2.takeWhile (fun c => !isQuoteChar c)
            let r3 := t2.dropWhile (fun c => !isQuoteChar c)
            if lit.isEmpty then none
            else match r3 with
              | _ :: _ => some (String.mk lit)
              | [] => none
          else none
        | [] => none
      else none
    | [] => none
  else none

/-- First position in `l` where `from\s+['"]...['"]` matches. -/
def firstFromQuote : List Char → Option String
  | [] => none
  | c :: t =>
    match fromQuoteAt (c :: t) with
    | some s => some s
    | none => firstFromQuote t

/-- Captured module path of one line of source text. -/
def importPathOfLine (line : List Char) : Option String :=
  match dropAfterSub "import".toList line with
  | none => none
  | some rest => firstFromQuote rest

/-- All module paths captured by the global import pattern. -/
def importCaptures (content : String) : List String :=
  ((content.toList.splitOn '\n').filterMap importPathOfLine)

/-! ## The export extractor

Pattern `export\s+(interface|type|function|const)\s+([A-Za-z0-9_]+)`
scanned globally; the captured symbol name is collected. -/

def exportKeywords : List String :=
  ["interface", "type", "function", "const"]

/-- After the export keyword alternation: whitespace then a word run. -/
def exportNameAfterKw (r : List Char) : Option (String × List Char) :=
  match r with
  | c :: t =>
    if isWsChar c then
      let r2 := t.dropWhile isWsChar
      let name := r2.takeWhile isWordChar
      let rest := r2.dropWhile isWordChar
      if name.isEmpty then none else some (String.mk name, rest)
    else none
  | [] => none

/-- Try the alternation `(interface|type|function|const)` at the head. -/
def exportKwAlt : List String → List Char → Option (String × List Char)
  | [], _ => none
  | kw :: kws, r =>
    match (if (kw.toList).isPrefixOf r then
             exportNameAfterKw (r.drop kw.length) else none) with
    | some v => some v
    | none => exportKwAlt kws r

/-- Try the whole export pattern at the head of the input. -/
def matchExportAt (l : List Char) : Option (String × List Char) :=
  if ("export".toList).isPrefixOf l then
    match l.drop 6 with
    | c :: t =>
      if isWsChar c then exportKwAlt exportKeywords (t.dropWhile isWsChar)
      else none
    | [] => none
  else none

/-- All exported names captured by the global export pattern. -/
def exportCaptures (content : String) : List String :=
  scanAll matchExportAt content.toList

/-! ## The variant and size extractors

Pattern `type\s+\w*Variant\s*=\s*['"][^'"]+['"](\s*\|\s*['"][^'"]+['"])*`
(and the same with `Size`), scanned globally; from each match every
quoted literal is collected with its quotes stripped. -/

/-- A quoted string literal (either quote opens, either quote closes, at
least one character between). -/
def quotedLitAt (l : List Char) : Option (String × List Char) :=
  match l with
  | q :: t =>
    if isQuoteChar q then
      let lit := t.takeWhile (fun c => !isQuoteChar c)
      let r := t.dropWhile (fun c => !isQuoteChar c)
      if lit.isEmpty then none
      else match r with
        | _ :: rest => some (String.mk lit, rest)
        | [] => none
    else none
  | [] => none

/-- Greedy `(\s*\|\s*['"][^'"]+['"])*` tail of a union type. -/
def unionTailAux : Nat → List String → List Char → List String × List Char
  | 0, acc, l => (acc.reverse, l)
  | fuel + 1, acc, l =>
    let r1 := l.dropWhile isWsChar
    match r1 with
    | '|' :: t =>
      match quotedLitAt (t.dropWhile isWsChar) with
      | some (lit, rest) => unionTailAux fuel (lit :: acc) rest
      | none => (acc.reverse, l)
    | _ => (acc.reverse, l)

/-- Try `type\s+\w*SUF\s*=\s*` + quoted union at the head of the input,
returning all string literals of the union. -/
def matchTypeAliasAt (suffix : List Char) (l : List Char) :
    Option (List String × List Char) :=
  if ("type".toList).isPrefixOf l then
    match l.drop 4 with
    | c :: t =>
      if isWsChar c then
        let r2 := t.dropWhile isWsChar
        let run := r2.takeWhile isWordChar
        let r3 := r2.dropWhile isWordChar
        if suffix.isSuffixOf run then
          match r3.dropWhile isWsChar with
          | '=' :: t2 =>
            match quotedLitAt (t2.dropWhile isWsChar) with
            | some (lit, rest) =>
              let (lits, rest2) := unionTailAux rest.length [] rest
              some (lit :: lits, rest2)
            | none => none
          | _ => none
        else none
      else none
    | [] => none
  else none

/-- All literal lists captured by the global `*Variant` pattern. -/
def variantCaptures (content : String) : List (List String) :=
  scanAll (matchTypeAliasAt "Variant".toList) content.toList

/-- All literal lists captured by the global `*Size` pattern. -/
def sizeCaptures (content : String) : List (List String) :=
  scanAll (matchTypeAliasAt "Size".toList) content.toList

/-! ## The token-usage extractor

Pattern `(colors|spacing|radii|borders|typography|iconSizes|opacity|
shadows|haptics)\.[\w.\[\]]+` scanned globally; the whole match is
collected. -/

def tokenRoots : List String :=
  ["colors", "spacing", "radii", "borders", "typography", "iconSizes",
   "opacity", "shadows", "haptics"]

/-- Character class `[\w.\[\]]`. -/
def isTokenPathChar (c : Char) : Bool :=
  isWordChar c || c == '.' || c == '[' || c == ']'

/-- Try one root of the token alternation at the head of the input. -/
def tokenRootAlt : List String → List Char → Option (String × List Char)
  | [], _ => none
  | root :: roots, l =>
    if (root.toList).isPrefixOf l then
      match l.drop root.length with
      | '.' :: t =>
        let run := t.takeWhile isTokenPathChar
        let rest := t.dropWhile isTokenPathChar
        if run.isEmpty then tokenRootAlt roots l
        else some (root ++ "." ++ String.mk run, rest)
      | _ => tokenRootAlt roots l
    else tokenRootAlt roots l

/-- All dotted token accessor paths captured by the global pattern. -/
def tokenCaptures (content : String) : List String :=
  scanAll (tokenRootAlt tokenRoots) content.toList

/-! ## MD5 (the content hasher, `crypto.createHash('md5')`)

Reference implementation over byte lists; 32-bit words are Nat reduced
mod 2^32. -/

def pow32 : Nat := 4294967296

def mask32 : Nat := 4294967295

/-- 32-bit left rotation (argument assumed below 2^32). -/
def rotl32 (x s : Nat) : Nat :=
  ((x % pow32) * 2 ^ s) % pow32 + (x % pow32) / 2 ^ (32 - s)

/-- Per-round shift amounts. -/
def md5S : List Nat :=
  [7, 12, 17, 22, 7, 12, 17, 22, 7, 12, 17, 22, 7, 12, 17, 22,
   5, 9, 14, 20, 5, 9, 14, 20, 5, 9, 14, 20, 5, 9, 14, 20,
   4, 11, 16, 23, 4, 11, 16, 23, 4, 11, 16, 23, 4, 11, 16, 23,
   6, 10, 15, 21, 6, 10, 15, 21, 6, 10, 15, 21, 6, 10, 15, 21]

/-- Per-round additive constants. -/
def md5K : List Nat :=
  [0xd76aa478, 0xe8c7b756, 0x242070db, 0xc1bdceee,
   0xf57c0faf, 0x4787c62a, 0xa8304613, 0xfd469501,
   0x698098d8, 0x8b44f7af, 0xffff5bb1, 0x895cd7be,
   0x6b901122, 0xfd987193, 0xa679438e, 0x49b40821,
   0xf61e2562, 0xc040b340, 0x265e5a51, 0xe9b6c7aa,
   0xd62f105d, 0x02441453, 0xd8a1e681, 0xe7d3fbc8,
   0x21e1cde6, 0xc33707d6, 0xf4d50d87, 0x455a14ed,
   0xa9e3e905, 0xfcefa3f8, 0x676f02d9, 0x8d2a4c8a,
   0xfffa3942, 0x8771f681, 0x6d9d6122, 0xfde5380c,
   0xa4beea44, 0x4bdecfa9, 0xf6bb4b60, 0xbebfbc70,
   0x289b7ec6, 0xeaa127fa, 0xd4ef3085, 0x04881d05,
   0xd9d4d039, 0xe6db99e5, 0x1fa27cf8, 0xc4ac5665,
   0xf4292244, 0x432aff97, 0xab9423a7, 0xfc93a039,
   0x655b59c3, 0x8f0ccc92, 0xffeff47d, 0x85845dd1,
   0x6fa87e4f, 0xfe2ce6e0, 0xa3014314, 0x4e0811a1,
   0xf7537e82, 0xbd3af235, 0x2ad7d2bb, 0xeb86d391]

/-- Mixing function and message-word index for round `i`. -/
def md5FG (i b c d : Nat) : Nat × Nat :=
  if i < 16 then ((b &&& c) ||| ((mask32 ^^^ b) &&& d), i)
  else if i < 32 then ((d &&& b) ||| ((mask32 ^^^ d) &&& c), (5 * i + 1) % 16)
  else if i < 48 then (b ^^^ c ^^^ d, (3 * i + 5) % 16)
  else (c ^^^ (b ||| (mask32 ^^^ d)), (7 * i) % 16)

/-- One MD5 round over state `(a, b, c, d)` with chunk words `m`. -/
def md5Step (m : List Nat) (st : Nat × Nat × Nat × Nat) (i : Nat) :
    Nat × Nat × Nat × Nat :=
  let a := st.1
  let b := st.2.1
  let c := st.2.2.1
  let d := st.2.2.2
  let fg := md5FG i b c d
  let f := (fg.1 + a + md5K.getD i 0 + m.getD fg.2 0) % pow32
  (d, (b + rotl32 f (md5S.getD i 0)) % pow32, b, c)

/-- Little-endian 32-bit words of a 64-byte chunk. -/
def chunkWords (chunk : List Nat) : List Nat :=
  (List.range 16).map fun j =>
    chunk.getD (4 * j) 0 + chunk.getD (4 * j + 1) 0 * 256 +
    chunk.getD (4 * j + 2) 0 * 65536 + chunk.getD (4 * j + 3) 0 * 16777216

/-- Process one 64-byte chunk into the running state. -/
def md5Chunk (st : Nat × Nat × Nat × Nat) (chunk : List Nat) :
    Nat × Nat × Nat × Nat :=
  let m := chunkWords chunk
  let r := (List.range 64).foldl (md5Step m) st
  ((st.1 + r.1) % pow32, (st.2.1 + r.2.1) % pow32,
   (st.2.2.1 + r.2.2.1) % pow32, (st.2.2.2 + r.2.2.2) % pow32)

/-- MD5 padding: a 0x80 byte, zeros to 56 mod 64, then the bit length as
eight little-endian bytes. -/
def md5Pad (msg : List Nat) : List Nat :=
  let len := msg.length
  let z := (55 + 64 - len % 64) % 64
  msg ++ [128] ++ List.replicate z 0 ++
    (List.range 8).map fun j => (len * 8) / 2 ^ (8 * j) % 256

/-- Split into 64-byte chunks. -/
def chunks64 : Nat → List Nat → List (List Nat)
  | 0, _ => []
  | _ + 1, [] => []
  | fuel + 1, l => l.take 64 :: chunks64 fuel (l.drop 64)

/-- Little-endian bytes of a 32-bit word. -/
def wordBytes (w : Nat) : List Nat :=
  [w % 256, w / 256 % 256, w / 65536 % 256, w / 16777216 % 256]

/-- The 16 digest bytes of a byte message. -/
def md5Bytes (msg : List Nat) : List Nat :=
  let padded := md5Pad msg
  let st := (chunks64 padded.length padded).foldl md5Chunk
    (0x67452301, 0xefcdab89, 0x98badcfe, 0x10325476)
  wordBytes st.1 ++ wordBytes st.2.1 ++ wordBytes st.2.2.1 ++
    wordBytes st.2.2.2

def hexDigitChar (n : Nat) : Char :=
  match n with
  | 0 => '0' | 1 => '1' | 2 => '2' | 3 => '3' | 4 => '4'
  | 5 => '5' | 6 => '6' | 7 => '7' | 8 => '8' | 9 => '9'
  | 10 => 'a' | 11 => 'b' | 12 => 'c' | 13 => 'd' | 14 => 'e'
  | 15 => 'f' | _ + 16 => '0'

/-- Two lowercase hex characters of one byte. -/
def byteHexChars (b : Nat) : List Char :=
  [hexDigitChar (b / 16 % 16), hexDigitChar (b % 16)]

/-- Bytes of source text: code points, faithful to the UTF-8 encoding
used by the script on the ASCII sources it processes. -/
def strBytes (s : String) : List Nat :=
  s.toList.map fun c => c.toNat % 256

/-- `crypto.createHash('md5').update(text).digest('hex')`. -/
def md5Hex (s : String) : String :=
  String.mk ((md5Bytes (strBytes s)).flatMap byteHexChars)

/-! ## JSON values and `JSON.stringify`

Template definitions are parsed JSON documents.  `stringifyCompact`
models `JSON.stringify(v)` and `stringifyIndent2` models
`JSON.stringify(v, null, 2)`.  Object key order is the association-list
order, matching the insertion order JavaScript preserves. -/

inductive Json where
  | null : Json
  | bool (b : Bool) : Json
  | num (n : Int) : Json
  | str (s : String) : Json
  | arr (xs : List Json) : Json
  | obj (fields : List (String × Json)) : Json

/-- JSON string escaping (the characters relevant to the sources at
hand; other control characters would be escaped numerically by
JavaScript). -/
def jsonEscapeChar (c : Char) : List Char :=
  if c == '"' then ['\\', '"']
  else if c == '\\' then ['\\', '\\']
  else if c == '\n' then ['\\', 'n']
  else if c == '\t' then ['\\', 't']
  else if c == '\r' then ['\\', 'r']
  else [c]

def jsonQuote (s : String) : String :=
  "\"" ++ String.mk (s.toList.flatMap jsonEscapeChar) ++ "\""

def joinSep (sep : String) : List String → String
  | [] => ""
  | [x] => x
  | x :: y :: t => x ++ sep ++ joinSep sep (y :: t)

mutual

/-- `JSON.stringify(v)`: compact, no whitespace. -/
def stringifyCompact : Json → String
  | .null => "null"
  | .bool b => if b then "true" else "false"
  | .num n => toString n
  | .str s => jsonQuote s
  | .arr xs => "[" ++ joinSep "," (stringifyCompactList xs) ++ "]"
  | .obj fs => "\x7b" ++ joinSep "," (stringifyCompactFields fs) ++ "\x7d"

def stringifyCompactList : List Json → List String
  | [] => []
  | x :: t => stringifyCompact x :: stringifyCompactList t

def stringifyCompactFields : List (String × Json) → List String
  | [] => []
  | (k, v) :: t =>
    (jsonQuote k ++ ":" ++ stringifyCompact v) :: stringifyCompactFields t

end

/-- `2 * d` spaces of indentation. -/
def indentPad (d : Nat) : String :=
  String.mk (List.replicate (2 * d) ' ')

mutual

/-- `JSON.stringify(v, null, 2)` at nesting depth `d`. -/
def stringifyIndentAt : Nat → Json → String
  | _, .null => "null"
  | _, .bool b => if b then "true" else "false"
  | _, .num n => toString n
  | _, .str s => jsonQuote s
  | _, .arr [] => "[]"
  | d, .arr (x :: t) =>
    "[\n" ++ joinSep ",\n" (stringifyIndentList (d + 1) (x :: t)) ++
    "\n" ++ indentPad d ++ "]"
  | _, .obj [] => "\x7b\x7d"
  | d, .obj (f :: t) =>
    "\x7b\n" ++ joinSep ",\n" (stringifyIndentFields (d + 1) (f :: t)) ++
    "\n" ++ indentPad d ++ "\x7d"

def stringifyIndentList : Nat → List Json → List String
  | _, [] => []
  | d, x :: t => (indentPad d ++ stringifyIndentAt d x) :: stringifyIndentList d t

def stringifyIndentFields : Nat → List (String × Json) → List String
  | _, [] => []
  | d, (k, v) :: t =>
    (indentPad d ++ jsonQuote k ++ ": " ++ stringifyIndentAt d v) ::
      stringifyIndentFields d t

end

/-- `JSON.stringify(v, null, 2)`. -/
def stringifyIndent2 (v : Json) : String :=
  stringifyIndentAt 0 v

/-- Property access `o[k]` on a JSON value; `none` models `undefined`. -/
def jget : Json → String → Option Json
  | .obj fs, k => fs.lookup k
  | _, _ => none

/-- Property access on a possibly-undefined value (access on `none`
would throw in JavaScript; no claim exercises that path). -/
def optJget (o : Option Json) (k : String) : Option Json :=
  match o with
  | some v => jget v k
  | none => none

/-- JavaScript truthiness of a possibly-undefined JSON value. -/
def jsTruthy : Option Json → Bool
  | none => false
  | some .null => false
  | some (.bool b) => b
  | some (.num n) => n != 0
  | some (.str s) => s != ""
  | some (.arr _) => true
  | some (.obj _) => true

/-- `Object.keys` of a JSON value (non-objects among the template token
maps are unreachable behind the truthiness guard). -/
def jkeys : Json → List String
  | .obj fs => fs.map Prod.fst
  | _ => []

mutual

/-- String coercion of a JSON value as performed by a template literal. -/
def jsDisplayJ : Json → String
  | .null => "null"
  | .bool b => if b then "true" else "false"
  | .num n => toString n
  | .str s => s
  | .arr xs => jsDisplayList xs
  | .obj _ => "[object Object]"

def jsDisplayList : List Json → String
  | [] => ""
  | [x] => jsDisplayJ x
  | x :: y :: t => jsDisplayJ x ++ "," ++ jsDisplayList (y :: t)

end

/-- String coercion as performed by a template literal (`undefined`
prints as such; accessing a field of an undefined value would make the
script throw instead, a path no claim exercises). -/
def jsDisplay : Option Json → String
  | none => "undefined"
  | some v => jsDisplayJ v

/-! ## Registry configuration (`REGISTRY_CONFIG`)

`lastUpdated` is a run-time timestamp and is passed explicitly to every
function that embeds it into a record. -/

def registryBaseUrl : String :=
  "https://raw.githubusercontent.com/rncanopy/rncanopy-registry/main"

def registryVersion : String := "1.0.0"

/-! ## The source analyzer (`analyzeComponentFile`) -/

structure Analysis where
  dependencies : List String
  exports : List String
  variants : List String
  sizes : List String
  hasHaptics : Bool
  hasProvider : Bool
  tokenUsage : List String
  checksum : String

/-- The dependency filter of `analyzeComponentFile`: keep `pkg` unless it
is relative, under `react-native/`, or equal to `react`/`react-native`. -/
def keepDependency (pkg : String) : Bool :=
  !strStartsWith pkg "." && !strStartsWith pkg "react-native/" &&
  pkg != "react" && pkg != "react-native"

/-- Replace every occurrence of `pat` (non-overlapping, left to right),
the behaviour of `String.prototype.replace` with a global pattern. -/
def replaceAllAux (pat rep : List Char) : Nat → List Char → List Char
  | 0, l => l
  | _ + 1, [] => []
  | fuel + 1, c :: t =>
    if pat.isPrefixOf (c :: t) then
      rep ++ replaceAllAux pat rep fuel ((c :: t).drop pat.length)
    else c :: replaceAllAux pat rep fuel t

def replaceAllSub (s pat rep : String) : String :=
  String.mk (replaceAllAux pat.toList rep.toList s.toList.length s.toList)

/-- The fact sheet extracted from one artifact's source text. -/
def analyzeComponentFile (content : String) : Analysis :=
  { dependencies := dedupFirst ((importCaptures content).filter keepDependency)
    exports := dedupFirst (exportCaptures content)
    variants := dedupFirst (variantCaptures content).flatten
    sizes := dedupFirst (sizeCaptures content).flatten
    hasHaptics := jsIncludes content "useHaptics" ||
      jsIncludes content "triggerHaptic"
    hasProvider := jsIncludes content "useTheme" ||
      jsIncludes content "useHaptics"
    tokenUsage := dedupFirst (tokenCaptures content)
    checksum := md5Hex content }

/-! ## The metadata synthesizer (`createComponentMetadata`) -/

def baseCategories : List (String × String) :=
  [("button", "forms"), ("gradientbutton", "forms"), ("input", "forms"),
   ("switch", "forms"), ("slider", "forms"), ("toggle", "forms"),
   ("alert", "feedback"), ("toast", "feedback"), ("badge", "feedback"),
   ("card", "layout"), ("spinner", "loading")]

def baseDescriptions : List (String × String) :=
  [("button", "Customizable button component with multiple variants, sizes, and loading states"),
   ("gradientbutton", "Button component with gradient backgrounds and advanced styling"),
   ("input", "Text input component with validation states and helper text"),
   ("switch", "Toggle control with smooth animations and haptic feedback"),
   ("slider", "Range input control with customizable styling"),
   ("toggle", "Button-like toggle component with pressed states"),
   ("alert", "Inline feedback messages with multiple variants"),
   ("toast", "Overlay notifications with positioning and animations"),
   ("badge", "Status indicators and labels with multiple variants"),
   ("card", "Container component with elevation and customizable styling"),
   ("spinner", "Loading indicators with multiple styles and sizes")]

/-- Table access combined with the JavaScript `||` fallback. -/
def jsLookupOr (tbl : List (String × String)) (k fallback : String) : String :=
  match tbl.lookup k with
  | some v => if v = "" then fallback else v
  | none => fallback

/-- `name.charAt(0).toUpperCase() + name.slice(1)`. -/
def capitalizeFirst (s : String) : String :=
  match s.toList with
  | [] => ""
  | c :: t => String.mk (Char.toUpper c :: t)

structure CompMeta where
  name : String
  displayName : String
  description : String
  category : String
  dependencies : List String
  requiredProviders : List String
  files : List String
  exports : List String
  variants : List String
  sizes : List String
  tokenUsage : List String
  hasHaptics : Bool
  version : String
  checksum : String
  downloadUrl : String
  metadataUrl : String

/-- The full component record synthesized from a fact sheet. -/
def createComponentMetadata (componentName : String) (analysis : Analysis) :
    CompMeta :=
  let normalizedName := lowerStr componentName
  let displayName := capitalizeFirst componentName
  let requiredProviders :=
    (if analysis.hasHaptics then ["HapticsProvider"] else []) ++
    (if analysis.hasProvider then ["ThemeProvider"] else [])
  { name := normalizedName
    displayName :=
      if normalizedName = "gradientbutton" then "Gradient Button"
      else displayName
    description :=
      jsLookupOr baseDescriptions normalizedName (displayName ++ " component")
    category := jsLookupOr baseCategories normalizedName "forms"
    dependencies := analysis.dependencies
    requiredProviders := requiredProviders
    files := ["component.tsx.template"]
    exports := analysis.exports
    variants := analysis.variants
    sizes := analysis.sizes
    tokenUsage := analysis.tokenUsage
    hasHaptics := analysis.hasHaptics
    version := registryVersion
    checksum := analysis.checksum
    downloadUrl := registryBaseUrl ++ "/components/" ++ normalizedName ++
      "/component.tsx.template"
    metadataUrl := registryBaseUrl ++ "/components/" ++ normalizedName ++
      "/component.json" }

/-! ## The component registry build (`buildComponentRegistry`)

The input is the directory listing of the source component tree as an
association list of file name and content. -/

/-- Listing filter and name stripping of `buildComponentRegistry`. -/
def componentEntries (files : List (String × String)) :
    List (String × String) :=
  (files.filter fun f => strEndsWith f.1 ".tsx" && !jsIncludes f.1 "index").map
    fun f => (replaceFirstSub f.1 ".tsx" "", f.2)

/-- The relative-import rewriting applied to a copied component source
(the first two substitutions rewrite a string to itself, as in the
script). -/
def toComponentTemplate (content : String) : String :=
  replaceAllSub
    (replaceAllSub
      (replaceAllSub
        (replaceAllSub content "from \x27../" "from \x27../")
        "from \x27./\x27" "from \x27./")
      "../../constants/ui" "./constants/ui")
    "../../providers" "./providers"

/-- The synthesized component records of one build. -/
def buildComponentRecords (files : List (String × String)) : List CompMeta :=
  (componentEntries files).map fun e =>
    createComponentMetadata e.1 (analyzeComponentFile e.2)

def componentDirPath (name : String) : String :=
  "components/" ++ name

def componentTemplatePath (name : String) : String :=
  "components/" ++ name ++ "/component.tsx.template"

def componentMetadataPath (name : String) : String :=
  "components/" ++ name ++ "/component.json"

/-- The on-disk paths created for components by one build (directory,
template copy, metadata file for each entry; the directory name is the
source file base name). -/
def builtComponentPaths (files : List (String × String)) : List String :=
  (componentEntries files).flatMap fun e =>
    [componentDirPath e.1, componentTemplatePath e.1,
     componentMetadataPath e.1]

/-! ## The provider registry build (`buildProviderRegistry`) -/

structure ProviderMeta where
  name : String
  displayName : String
  description : String
  dependencies : List String
  exports : List String
  version : String
  checksum : String
  downloadUrl : String

def providerEntries (files : List (String × String)) :
    List (String × String) :=
  files.filter fun f => strEndsWith f.1 ".tsx" && !jsIncludes f.1 "index"

/-- The provider record synthesized for one provider source file. -/
def providerMetaOf (file : String) (analysis : Analysis) : ProviderMeta :=
  let providerName := replaceFirstSub file ".tsx" ""
  { name := lowerStr providerName
    displayName := providerName
    description := providerName ++ " context provider"
    dependencies := analysis.dependencies
    exports := analysis.exports
    version := registryVersion
    checksum := analysis.checksum
    downloadUrl := registryBaseUrl ++ "/providers/" ++ providerName ++
      ".tsx.template" }

def buildProviderRecords (files : List (String × String)) :
    List ProviderMeta :=
  (providerEntries files).map fun f =>
    providerMetaOf f.1 (analyzeComponentFile f.2)

/-! ## The token registry build (`buildTokenRegistry`) -/

structure TokenMeta where
  name : String
  description : String
  version : String
  checksum : String
  downloadUrl : String

def tokenEntries (files : List (String × String)) : List (String × String) :=
  files.filter fun f => strEndsWith f.1 ".ts" && !jsIncludes f.1 "index"

def tokenMetaOf (file content : String) : TokenMeta :=
  let tokenName := replaceFirstSub file ".ts" ""
  { name := tokenName
    description := tokenName ++ " design tokens"
    version := registryVersion
    checksum := md5Hex content
    downloadUrl := registryBaseUrl ++ "/tokens/" ++ tokenName ++
      ".ts.template" }

def buildTokenRecords (files : List (String × String)) : List TokenMeta :=
  (tokenEntries files).map fun f => tokenMetaOf f.1 f.2

/-! ## The template processor (`buildTemplateRegistry`)

One template definition is the parsed `template.json` document under its
directory name.  Per directory the script: checks the mandatory
`tokens.colors` group (warns and skips when absent), externalizes each
token group into `<group>.json` (2-space-indented serialization), and
synthesizes a metadata record whose per-group checksums hash the compact
serialization of each group.  A failing group lookup inside the checksum
computation would throw and be caught, skipping the record after the
files were written; that is the error outcome below.  (The script also
writes the metadata record itself to `metadata.json`; the content of
that file is not needed by any claim and is not modelled.) -/

structure TokenFileRef where
  type : String
  url : String
  checksum : String

structure TemplateMeta where
  name : Option Json
  displayName : Option Json
  description : Option Json
  author : Option Json
  version : Option Json
  lastUpdated : String
  personality : Option Json
  preview : Option Json
  tokenFiles : List TokenFileRef
  templateUrl : String
  metadataUrl : String
  checksum : String

/-- The guard `!template.tokens || !template.tokens.colors`, negated:
processing proceeds exactly when both are truthy. -/
def templateHasRequiredColors (doc : Json) : Bool :=
  jsTruthy (jget doc "tokens") &&
  jsTruthy (optJget (jget doc "tokens") "colors")

/-- `template.tokens` (never undefined behind the truthiness guard). -/
def templateTokens (doc : Json) : Json :=
  (jget doc "tokens").getD Json.null

/-- One entry of the record's `tokenFiles` array, for the generated file
name `file` (`<group>.json`). -/
def tokenFileRef (templateName : String) (tokens : Json) (file : String) :
    TokenFileRef :=
  { type := replaceFirstSub file ".json" ""
    url := registryBaseUrl ++ "/templates/" ++ templateName ++ "/" ++ file
    checksum :=
      match jget tokens (replaceFirstSub file ".json" "") with
      | some v => md5Hex (stringifyCompact v)
      | none => "" }

/-- The per-group files written for one template: path and 2-space
indented content. -/
def templateWrittenFiles (templateName : String) (tokens : Json) :
    List (String × String) :=
  (jkeys tokens).map fun ty =>
    ("templates/" ++ templateName ++ "/" ++ ty ++ ".json",
     stringifyIndent2 ((jget tokens ty).getD Json.null))

/-- The template metadata record. -/
def templateMetaOf (lastUpdated templateName : String) (doc : Json) :
    TemplateMeta :=
  let tokens := templateTokens doc
  let generatedFiles := (jkeys tokens).map (· ++ ".json")
  { name := jget doc "name"
    displayName := jget doc "displayName"
    description := jget doc "description"
    author := jget doc "author"
    version := jget doc "version"
    lastUpdated := lastUpdated
    personality := jget doc "personality"
    preview := jget doc "preview"
    tokenFiles := generatedFiles.map (tokenFileRef templateName tokens)
    templateUrl := registryBaseUrl ++ "/templates/" ++ templateName ++
      "/template.json"
    metadataUrl := registryBaseUrl ++ "/templates/" ++ templateName ++
      "/metadata.json"
    checksum := md5Hex (stringifyCompact doc) }

inductive TplOutcome where
  | ok (meta : TemplateMeta) (files : List (String × String)) : TplOutcome
  | warnMissingColors : TplOutcome
  | errUndefinedGroup (files : List (String × String)) : TplOutcome

/-- Processing of one template directory. -/
def processTemplate (lastUpdated templateName : String) (doc : Json) :
    TplOutcome :=
  if templateHasRequiredColors doc then
    let tokens := templateTokens doc
    let files := templateWrittenFiles templateName tokens
    if ((jkeys tokens).map (· ++ ".json")).all
        (fun f => (jget tokens (replaceFirstSub f ".json" "")).isSome) then
      .ok (templateMetaOf lastUpdated templateName doc) files
    else .errUndefinedGroup files
  else .warnMissingColors

def templateWarnMsg (templateName : String) : String :=
  "Template " ++ templateName ++ " missing required tokens.colors"

def templateErrMsg (templateName : String) : String :=
  "Error processing template " ++ templateName

/-- `mood-spacing-roundness` personality key used by the API stats. -/
def personalityKey (t : TemplateMeta) : String :=
  jsDisplay (optJget t.personality "mood") ++ "-" ++
  jsDisplay (optJget t.personality "spacing") ++ "-" ++
  jsDisplay (optJget t.personality "roundness")

structure TemplatesApiStats where
  totalTemplates : Nat
  availableThemes : List (Option Json)
  tokenTypes : List String
  personalities : List String

structure TemplatesApi where
  version : String
  lastUpdated : String
  baseUrl : String
  templates : List TemplateMeta
  stats : TemplatesApiStats

/-- The published templates API document; `tokenTypes` reads the token
files of the first record when one exists. -/
def templatesApiOf (lastUpdated : String) (templates : List TemplateMeta) :
    TemplatesApi :=
  { version := registryVersion
    lastUpdated := lastUpdated
    baseUrl := registryBaseUrl
    templates := templates
    stats :=
      { totalTemplates := templates.length
        availableThemes := templates.map (·.name)
        tokenTypes :=
          match templates with
          | [] => []
          | t :: _ => t.tokenFiles.map (·.type)
        personalities := dedupFirst (templates.map personalityKey) } }

structure TemplateBuild where
  templates : List TemplateMeta
  warnings : List String
  errors : List String
  written : List (String × String)
  api : TemplatesApi

/-- The whole template registry build over the listed template
directories (each given as directory name and parsed definition).  The
single pass of the script is decomposed into one traversal per
independent accumulator. -/
def buildTemplateRegistry (lastUpdated : String)
    (defs : List (String × Json)) : TemplateBuild :=
  let templates := defs.filterMap fun d =>
    match processTemplate lastUpdated d.1 d.2 with
    | .ok m _ => some m
    | _ => none
  { templates := templates
    warnings := defs.filterMap fun d =>
      match processTemplate lastUpdated d.1 d.2 with
      | .warnMissingColors => some (templateWarnMsg d.1)
      | _ => none
    errors := defs.filterMap fun d =>
      match processTemplate lastUpdated d.1 d.2 with
      | .errUndefinedGroup _ => some (templateErrMsg d.1)
      | _ => none
    written := defs.flatMap fun d =>
      match processTemplate lastUpdated d.1 d.2 with
      | .ok _ fs => fs
      | .warnMissingColors => []
      | .errUndefinedGroup fs => fs
    api := templatesApiOf lastUpdated templates }

/-! ## The registry index (`buildRegistryIndex`) -/

def sortStrings (l : List String) : List String :=
  l.insertionSort (· ≤ ·)

structure IndexStats where
  components : Nat
  templates : Nat
  providers : Nat
  tokens : Nat
  totalDependencies : Nat

structure RegistryIndex where
  version : String
  lastUpdated : String
  baseUrl : String
  stats : IndexStats
  endpointComponents : String
  endpointTemplates : String
  endpointProviders : String
  endpointTokens : String
  categories : List String
  dependencies : List String

/-- The master index derived from the four record lists. -/
def buildRegistryIndex (lastUpdated : String) (components : List CompMeta)
    (templates : List TemplateMeta) (providers : List ProviderMeta)
    (tokens : List TokenMeta) : RegistryIndex :=
  { version := registryVersion
    lastUpdated := lastUpdated
    baseUrl := registryBaseUrl
    stats :=
      { components := components.length
        templates := templates.length
        providers := providers.length
        tokens := tokens.length
        totalDependencies :=
          (dedupFirst (components.flatMap (·.dependencies))).length }
    endpointComponents := registryBaseUrl ++ "/api/components.json"
    endpointTemplates := registryBaseUrl ++ "/api/templates.json"
    endpointProviders := registryBaseUrl ++ "/api/providers.json"
    endpointTokens := registryBaseUrl ++ "/api/tokens.json"
    categories := dedupFirst (components.map (·.category))
    dependencies :=
      sortStrings (dedupFirst (components.flatMap (·.dependencies))) }

/-! ## The integrity validator (`validateComponents`)

The validator re-reads the published components document (modelled as
the record list it parses to) and the filesystem (modelled as an
existence predicate on relative paths). -/

def requiredComponentFields : List String :=
  ["name", "displayName", "description", "category", "dependencies",
   "exports", "version"]

/-- The keys present on every record serialized by
`createComponentMetadata` (the shape `hasOwnProperty` is checked
against). -/
def componentJsonKeys : List String :=
  ["name", "displayName", "description", "category", "dependencies",
   "requiredProviders", "files", "exports", "variants", "sizes",
   "tokenUsage", "hasHaptics", "version", "checksum", "downloadUrl",
   "metadataUrl"]

/-- Missing-field defects of one component record. -/
def componentFieldErrors (c : CompMeta) : List String :=
  (requiredComponentFields.filter fun f => !componentJsonKeys.contains f).map
    fun f => "Component " ++ (if c.name = "" then "unknown" else c.name) ++
      " missing field: " ++ f

/-- Missing-file defects of one component record: directory first, then
template and metadata files when the directory exists. -/
def componentFileErrors (c : CompMeta) (fsExists : String → Bool) :
    List String :=
  if !fsExists (componentDirPath c.name) then
    ["Component directory missing: " ++ c.name]
  else
    (if !fsExists (componentTemplatePath c.name) then
       ["Component template missing: " ++ c.name ++
        "/component.tsx.template"]
     else []) ++
    (if !fsExists (componentMetadataPath c.name) then
       ["Component metadata missing: " ++ c.name ++ "/component.json"]
     else [])

/-- All defects reported for one component record. -/
def componentErrors (c : CompMeta) (fsExists : String → Bool) :
    List String :=
  componentFieldErrors c ++ componentFileErrors c fsExists

structure ValidationResult where
  errors : List String
  valid : Bool

/-- `validateComponents`: every record is checked independently; the
single validity flag is the conjunction over all checks. -/
def validateComponents (components : List CompMeta)
    (fsExists : String → Bool) : ValidationResult :=
  let errors := components.flatMap fun c => componentErrors c fsExists
  { errors := errors, valid := errors.isEmpty }

/-- The filesystem state left by a build that wrote exactly `paths`. -/
def fsOfPaths (paths : List String) (p : String) : Bool :=
  paths.contains p

/-- Deletion of one path from a filesystem state. -/
def fsDelete (deleted : String) (fs : String → Bool) (p : String) : Bool :=
  if p = deleted then false else fs p

/-! ## Spec-side definitions

The next two definitions formalize the words of the specification (not
the code) for the refinement comparison of the dependency filter:
"keep it only if it is not a relative path and not the host UI
framework's own package names". -/

/-- Modelled from the spec: a relative module path. -/
def specIsRelativePath (pkg : String) : Bool :=
  strStartsWith pkg "."

/-- Modelled from the spec: the host UI framework's own package names
(the `react` and `react-native` packages and the latter's subpaths). -/
def specIsHostFrameworkPackage (pkg : String) : Bool :=
  pkg == "react" || pkg == "react-native" || strStartsWith pkg "react-native/"

/-! ## Helper lemmas -/

theorem contains_true_iff (l : List String) (a : String) :
    l.contains a = true ↔ a ∈ l := by
  simp [List.contains, List.elem_iff]

theorem mem_dedupFirstAux (x : String) (l : List String) :
    ∀ seen, x ∈ dedupFirstAux seen l ↔ (x ∈ l ∧ ¬ x ∈ seen) := by
  induction l with
  | nil => intro seen; simp [dedupFirstAux]
  | cons y t ih =>
    intro seen
    by_cases h : seen.contains y = true
    · have hy : y ∈ seen := (contains_true_iff seen y).mp h
      simp only [dedupFirstAux, if_pos h, ih seen, List.mem_cons]
      constructor
      · rintro ⟨hl, hs⟩
        exact ⟨Or.inr hl, hs⟩
      · rintro ⟨hl | hl, hs⟩
        · exact absurd (hl ▸ hy) hs
        · exact ⟨hl, hs⟩
    · have hy : ¬ y ∈ seen := fun hc => h ((contains_true_iff seen y).mpr hc)
      simp only [dedupFirstAux, if_neg h, List.mem_cons, ih (y :: seen)]
      constructor
      · rintro (rfl | ⟨hl, hs⟩)
        · exact ⟨Or.inl rfl, hy⟩
        · exact ⟨Or.inr hl, fun hx => hs (Or.inr hx)⟩
      · rintro ⟨rfl | hl, hs⟩
        · exact Or.inl rfl
        · by_cases hxy : x = y
          · exact Or.inl hxy
          · exact Or.inr ⟨hl, by simp [List.mem_cons, hxy, hs]⟩

theorem mem_dedupFirst (x : String) (l : List String) :
    x ∈ dedupFirst l ↔ x ∈ l := by
  simp [dedupFirst, mem_dedupFirstAux]

theorem nodup_dedupFirstAux (l : List String) :
    ∀ seen, (dedupFirstAux seen l).Nodup := by
  induction l with
  | nil => intro seen; simp [dedupFirstAux]
  | cons y t ih =>
    intro seen
    by_cases h : seen.contains y = true
    · simp only [dedupFirstAux, if_pos h]
      exact ih seen
    · simp only [dedupFirstAux, if_neg h]
      rw [List.nodup_cons]
      refine ⟨fun hy => ?_, ih (y :: seen)⟩
      rw [mem_dedupFirstAux] at hy
      exact hy.2 (List.mem_cons_self y seen)

theorem nodup_dedupFirst (l : List String) : (dedupFirst l).Nodup :=
  nodup_dedupFirstAux l []

theorem filterMap_filter_eq {α β : Type} (f : α → Option β) (p : α → Bool)
    (h : ∀ a, p a = false → f a = none) :
    ∀ l : List α, (l.filter p).filterMap f = l.filterMap f := by
  intro l
  induction l with
  | nil => rfl
  | cons a t ih =>
    by_cases hp : p a = true
    · simp [List.filter_cons, hp, List.filterMap_cons, ih]
    · have hp' : p a = false := by revert hp; cases p a <;> simp
      simp [List.filter_cons, hp', List.filterMap_cons, h a hp', ih]

/-! ## C1 -/

/-- C1 is false on the code: a source containing only the
`triggerHaptic` haptics marker yields `hasHaptics = true` but its record
does not require the theming provider, because the provider flag tests
`useTheme`/`useHaptics` only. -/
theorem c1_counterexample :
    (analyzeComponentFile "triggerHaptic").hasHaptics = true ∧
    ¬ "ThemeProvider" ∈ (createComponentMetadata "toggle"
        (analyzeComponentFile "triggerHaptic")).requiredProviders := by
  constructor
  · decide
  · decide

/-- C1 (amended): for every synthesized Component record,
`requiredProviders` contains the haptics provider marker iff
`hasHaptics` is true (a `useHaptics` or `triggerHaptic` marker was
found), and contains the theming provider marker iff a `useTheme` or
`useHaptics` marker was found; a source containing only the
`triggerHaptic` marker therefore requires the haptics provider but not
the theming provider. -/
theorem c1_required_providers (content componentName : String) :
    ("HapticsProvider" ∈ (createComponentMetadata componentName
        (analyzeComponentFile content)).requiredProviders ↔
      (jsIncludes content "useHaptics" = true ∨
       jsIncludes content "triggerHaptic" = true)) ∧
    ("ThemeProvider" ∈ (createComponentMetadata componentName
        (analyzeComponentFile content)).requiredProviders ↔
      (jsIncludes content "useTheme" = true ∨
       jsIncludes content "useHaptics" = true)) ∧
    ("HapticsProvider" ∈ (createComponentMetadata componentName
        (analyzeComponentFile content)).requiredProviders ↔
      (analyzeComponentFile content).hasHaptics = true) := by
  cases hA : jsIncludes content "useHaptics" <;>
    cases hB : jsIncludes content "triggerHaptic" <;>
      cases hC : jsIncludes content "useTheme" <;>
        simp [createComponentMetadata, analyzeComponentFile, hA, hB, hC]

/-! ## C2 -/

/-- C2: the dependency filter keeps an imported module path iff it is
neither a relative path nor one of the host framework's own package
names; duplicates collapse; and the scenario source yields exactly
`dependencies = ["lucide-react-native"]` and
`variants = ["solid", "outline"]`. -/
theorem c2_dependency_extraction :
    (∀ pkg : String, keepDependency pkg = true ↔
      (specIsRelativePath pkg = false ∧
       specIsHostFrameworkPackage pkg = false)) ∧
    (∀ content : String,
      (analyzeComponentFile content).dependencies.Nodup ∧
      ∀ p : String, p ∈ (analyzeComponentFile content).dependencies ↔
        (p ∈ importCaptures content ∧ keepDependency p = true)) ∧
    ((analyzeComponentFile
        "import \x7b Heart \x7d from \x27lucide-react-native\x27;\ntype ButtonVariant = \x27solid\x27 | \x27outline\x27;\n").dependencies =
      ["lucide-react-native"] ∧
     (analyzeComponentFile
        "import \x7b Heart \x7d from \x27lucide-react-native\x27;\ntype ButtonVariant = \x27solid\x27 | \x27outline\x27;\n").variants =
      ["solid", "outline"]) := by
  refine ⟨?_, ?_, by decide, by decide⟩
  · intro pkg
    cases h1 : strStartsWith pkg "." <;>
      cases h2 : strStartsWith pkg "react-native/" <;>
        cases h3 : pkg == "react" <;>
          cases h4 : pkg == "react-native" <;>
            simp_all [keepDependency, specIsRelativePath,
              specIsHostFrameworkPackage]
  · intro content
    refine ⟨nodup_dedupFirst _, fun p => ?_⟩
    simp [analyzeComponentFile, mem_dedupFirst, List.mem_filter]

/-! ## C8 -/

/-- C8: the analyzer is total (every Lean function below is) and
permissive: whenever a pattern has no match in the source text the
corresponding fact-sheet field is empty, and a missing capability marker
yields a false flag. -/
theorem c8_analyzer_permissive (content : String) :
    (importCaptures content = [] →
      (analyzeComponentFile content).dependencies = []) ∧
    (exportCaptures content = [] →
      (analyzeComponentFile content).exports = []) ∧
    (variantCaptures content = [] →
      (analyzeComponentFile content).variants = []) ∧
    (sizeCaptures content = [] →
      (analyzeComponentFile content).sizes = []) ∧
    (jsIncludes content "useHaptics" = false →
      jsIncludes content "triggerHaptic" = false →
      (analyzeComponentFile content).hasHaptics = false) ∧
    (jsIncludes content "useTheme" = false →
      jsIncludes content "useHaptics" = false →
      (analyzeComponentFile content).hasProvider = false) ∧
    (tokenCaptures content = [] →
      (analyzeComponentFile content).tokenUsage = []) := by
  refine ⟨fun h => ?_, fun h => ?_, fun h => ?_, fun h => ?_,
    fun h1 h2 => ?_, fun h1 h2 => ?_, fun h => ?_⟩ <;>
    simp [analyzeComponentFile, dedupFirst, dedupFirstAux, *]

/-- C8 witness: the empty source text matches no pattern and yields the
all-empty fact sheet. -/
theorem c8_analyzer_permissive_witness :
    (analyzeComponentFile "").dependencies = [] ∧
    (analyzeComponentFile "").exports = [] ∧
    (analyzeComponentFile "").variants = [] ∧
    (analyzeComponentFile "").sizes = [] ∧
    (analyzeComponentFile "").hasHaptics = false ∧
    (analyzeComponentFile "").hasProvider = false ∧
    (analyzeComponentFile "").tokenUsage = [] :=
  ⟨(c8_analyzer_permissive "").1 (by decide),
   (c8_analyzer_permissive "").2.1 (by decide),
   (c8_analyzer_permissive "").2.2.1 (by decide),
   (c8_analyzer_permissive "").2.2.2.1 (by decide),
   (c8_analyzer_permissive "").2.2.2.2.1 (by decide) (by decide),
   (c8_analyzer_permissive "").2.2.2.2.2.1 (by decide) (by decide),
   (c8_analyzer_permissive "").2.2.2.2.2.2 (by decide)⟩

/-! ## C3 -/

/-- C3: a template definition lacking the mandatory `tokens.colors`
group contributes a warning and no record (the produced record list is
the one obtained from the colors-carrying definitions alone), the
published Template API lists exactly the produced records, and the build
is a total function (no abort). -/
theorem c3_missing_colors_skipped (lastUpdated : String)
    (defs : List (String × Json)) :
    ((buildTemplateRegistry lastUpdated defs).templates =
      (buildTemplateRegistry lastUpdated
        (defs.filter fun d => templateHasRequiredColors d.2)).templates) ∧
    ((buildTemplateRegistry lastUpdated defs).api.templates =
      (buildTemplateRegistry lastUpdated defs).templates) ∧
    (∀ d ∈ defs, templateHasRequiredColors d.2 = false →
      templateWarnMsg d.1 ∈ (buildTemplateRegistry lastUpdated defs).warnings) := by
  refine ⟨?_, rfl, ?_⟩
  · simp only [buildTemplateRegistry]
    exact (filterMap_filter_eq _ _
      (fun d hd => by simp [processTemplate, hd]) defs).symm
  · intro d hd hcol
    have hw : (match processTemplate lastUpdated d.1 d.2 with
        | .warnMissingColors => some (templateWarnMsg d.1)
        | _ => none) = some (templateWarnMsg d.1) := by
      simp [processTemplate, hcol]
    simp only [buildTemplateRegistry]
    exact List.mem_filterMap.mpr ⟨d, hd, hw⟩

/-- C3 witness: of two concrete template definitions, one lacking
`tokens.colors`, the build warns about the defective one and produces
the same records as the run over the colors-carrying definition alone. -/
theorem c3_missing_colors_skipped_witness :
    templateWarnMsg "dusk" ∈ (buildTemplateRegistry "t0"
      [("canopy", Json.obj [("tokens",
          Json.obj [("colors", Json.obj [("primary", Json.str "#16a34a")])])]),
       ("dusk", Json.obj [("name", Json.str "dusk")])]).warnings :=
  (c3_missing_colors_skipped "t0" _).2.2
    ("dusk", Json.obj [("name", Json.str "dusk")])
    (List.mem_cons_of_mem _ (List.mem_cons_self _ _)) rfl

/-! ## C10 -/

def c10Defs : List (String × Json) :=
  [("canopy", Json.obj [("tokens",
      Json.obj [("colors", Json.obj [("primary", Json.str "#16a34a")])])]),
   ("dusk", Json.obj [("tokens",
      Json.obj [("colors", Json.obj [("bg", Json.str "#111827")]),
                ("spacing", Json.num 4)])])]

/-- C10: the published templates API takes `stats.tokenTypes` from the
first produced record only (empty when there is none); for a concrete
pair of templates where the `spacing` group appears only in the second,
that group is absent from `stats.tokenTypes` although present on the
second record. -/
theorem c10_tokenTypes_first_template_only :
    (∀ (lastUpdated : String) (defs : List (String × Json)),
      (buildTemplateRegistry lastUpdated defs).api.stats.tokenTypes =
        match (buildTemplateRegistry lastUpdated defs).templates with
        | [] => []
        | t :: _ => t.tokenFiles.map (·.type)) ∧
    (¬ "spacing" ∈ (buildTemplateRegistry "t0" c10Defs).api.stats.tokenTypes ∧
     ∃ t ∈ (buildTemplateRegistry "t0" c10Defs).templates,
       "spacing" ∈ t.tokenFiles.map (·.type)) := by
  refine ⟨fun lastUpdated defs => rfl, by decide, ?_⟩
  exact ⟨(buildTemplateRegistry "t0" c10Defs).templates.get ⟨1, by decide⟩,
    List.get_mem _ _ _, by decide⟩

/-! ## C5 -/

theorem flatMap_byteHexChars_length (l : List Nat) :
    (l.flatMap byteHexChars).length = 2 * l.length := by
  induction l with
  | nil => simp
  | cons b t ih =>
    simp [byteHexChars, ih]
    omega

theorem md5Bytes_length (msg : List Nat) : (md5Bytes msg).length = 16 := by
  simp [md5Bytes, wordBytes]

theorem hexDigitChar_mem (n : Nat) :
    hexDigitChar n ∈ "0123456789abcdef".toList := by
  match n with
  | 0 | 1 | 2 | 3 | 4 | 5 | 6 | 7 | 8 | 9
  | 10 | 11 | 12 | 13 | 14 | 15 => decide
  | n + 16 => exact (show ('0' : Char) ∈ "0123456789abcdef".toList by decide)

/-- C5: the content hasher is deterministic and normalization-free (the
recorded checksum is the digest of the raw text), every digest is a
32-character lowercase hexadecimal string, and two runs of any record
builder over one unchanged input tree assign every artifact identical
checksums. -/
theorem c5_hasher_determinism :
    (∀ content : String,
      (analyzeComponentFile content).checksum = md5Hex content) ∧
    (∀ content : String, (md5Hex content).length = 32 ∧
      ∀ c ∈ (md5Hex content).toList, c ∈ "0123456789abcdef".toList) ∧
    (∀ (files : List (String × String)) (run1 run2 : List CompMeta),
      run1 = buildComponentRecords files →
      run2 = buildComponentRecords files →
      run1.map (fun c => c.checksum) = run2.map (fun c => c.checksum)) ∧
    (∀ (files : List (String × String)) (run1 run2 : List ProviderMeta),
      run1 = buildProviderRecords files →
      run2 = buildProviderRecords files →
      run1.map (fun c => c.checksum) = run2.map (fun c => c.checksum)) ∧
    (∀ (files : List (String × String)) (run1 run2 : List TokenMeta),
      run1 = buildTokenRecords files →
      run2 = buildTokenRecords files →
      run1.map (fun c => c.checksum) = run2.map (fun c => c.checksum)) := by
  refine ⟨fun content => rfl, fun content => ⟨?_, ?_⟩,
    fun files r1 r2 h1 h2 => by rw [h1, h2],
    fun files r1 r2 h1 h2 => by rw [h1, h2],
    fun files r1 r2 h1 h2 => by rw [h1, h2]⟩
  · show ((md5Bytes (strBytes content)).flatMap byteHexChars).length = 32
    rw [flatMap_byteHexChars_length, md5Bytes_length]
  · intro c hc
    have hc' : c ∈ (md5Bytes (strBytes content)).flatMap byteHexChars := hc
    rcases List.mem_flatMap.mp hc' with ⟨b, _, hb⟩
    simp only [byteHexChars, List.mem_cons, List.not_mem_nil, or_false] at hb
    rcases hb with rfl | rfl <;> exact hexDigitChar_mem _

/-- C5 witness: the determinism clauses instantiated on a concrete
one-file tree, and a digit of a concrete digest lying in the hex
alphabet. -/
theorem c5_hasher_determinism_witness :
    ((buildComponentRecords [("button.tsx", "x")]).map (fun c => c.checksum) =
      (buildComponentRecords [("button.tsx", "x")]).map (fun c => c.checksum)) ∧
    '9' ∈ "0123456789abcdef".toList :=
  ⟨c5_hasher_determinism.2.2.1 [("button.tsx", "x")] _ _ rfl rfl,
   (c5_hasher_determinism.2.1 "x").2 '9' (by decide)⟩

/-! ## C6 -/

/-- C6 is false on the code for providers: the record's `name` is the
lowercased source file base name while `downloadUrl` embeds the original
base name, so two provider records generated from differently-cased
files share a `name` but carry different URLs. -/
theorem c6_counterexample :
    (providerMetaOf "ThemeProvider.tsx" (analyzeComponentFile "")).name =
      (providerMetaOf "THEMEPROVIDER.tsx" (analyzeComponentFile "")).name ∧
    ¬ (providerMetaOf "ThemeProvider.tsx" (analyzeComponentFile "")).downloadUrl =
      (providerMetaOf "THEMEPROVIDER.tsx" (analyzeComponentFile "")).downloadUrl := by
  exact ⟨by decide, by decide⟩

/-- C6 (amended): component record URLs are deterministic functions of
the configured base URL, the kind, and the record's `name` (equal names
give equal URLs); provider and template URLs are deterministic functions
of the base URL, the kind, and the source file base name respectively
the template directory name, which may differ from the record's `name`
field. -/
theorem c6_urls_by_kind :
    (∀ (n1 n2 : String) (a1 a2 : Analysis),
      (createComponentMetadata n1 a1).name = (createComponentMetadata n2 a2).name →
      (createComponentMetadata n1 a1).downloadUrl =
        (createComponentMetadata n2 a2).downloadUrl ∧
      (createComponentMetadata n1 a1).metadataUrl =
        (createComponentMetadata n2 a2).metadataUrl) ∧
    (∀ (file : String) (a : Analysis),
      (providerMetaOf file a).downloadUrl =
        registryBaseUrl ++ "/providers/" ++ replaceFirstSub file ".tsx" "" ++
          ".tsx.template") ∧
    (∀ (lastUpdated templateName : String) (doc : Json),
      (templateMetaOf lastUpdated templateName doc).templateUrl =
        registryBaseUrl ++ "/templates/" ++ templateName ++ "/template.json" ∧
      (templateMetaOf lastUpdated templateName doc).metadataUrl =
        registryBaseUrl ++ "/templates/" ++ templateName ++ "/metadata.json") := by
  refine ⟨?_, fun file a => rfl, fun lastUpdated templateName doc => ⟨rfl, rfl⟩⟩
  intro n1 n2 a1 a2 h
  simp only [createComponentMetadata] at h ⊢
  rw [h]
  exact ⟨rfl, rfl⟩

/-- C6 witness: two differently-cased component source names with the
same lowercased record name receive the same download URL. -/
theorem c6_urls_by_kind_witness :
    (createComponentMetadata "Button" (analyzeComponentFile "")).downloadUrl =
      (createComponentMetadata "BUTTON" (analyzeComponentFile "")).downloadUrl :=
  (c6_urls_by_kind.1 "Button" "BUTTON" (analyzeComponentFile "")
    (analyzeComponentFile "") (by decide)).1

/-! ## C9 -/

/-- C9: for a processed template, the checksum recorded for a token
group hashes the compact serialization of the group value, while the
written per-group file holds the 2-space-indented serialization; on a
concrete group value the two serializations and their digests differ, so
the recorded checksum is not the digest of the written content. -/
theorem c9_group_checksum_vs_file :
    (∀ (templateName ty : String) (tokens v : Json),
      jget tokens (replaceFirstSub (ty ++ ".json") ".json" "") = some v →
      (tokenFileRef templateName tokens (ty ++ ".json")).checksum =
        md5Hex (stringifyCompact v)) ∧
    (∀ (templateName ty : String) (tokens : Json), ty ∈ jkeys tokens →
      ("templates/" ++ templateName ++ "/" ++ ty ++ ".json",
        stringifyIndent2 ((jget tokens ty).getD Json.null)) ∈
        templateWrittenFiles templateName tokens) ∧
    (¬ stringifyCompact (Json.obj [("primary", Json.str "#16a34a")]) =
        stringifyIndent2 (Json.obj [("primary", Json.str "#16a34a")]) ∧
     ¬ md5Hex (stringifyCompact (Json.obj [("primary", Json.str "#16a34a")])) =
        md5Hex (stringifyIndent2 (Json.obj [("primary", Json.str "#16a34a")]))) := by
  refine ⟨?_, ?_, by decide, by decide⟩
  · intro templateName ty tokens v h
    simp [tokenFileRef, h]
  · intro templateName ty tokens hty
    exact List.mem_map.mpr ⟨ty, hty, rfl⟩

/-- C9 witness: the two clauses instantiated on a concrete template
token map with a single `colors` group. -/
theorem c9_group_checksum_vs_file_witness :
    (tokenFileRef "canopy"
        (Json.obj [("colors", Json.obj [("primary", Json.str "#16a34a")])])
        ("colors" ++ ".json")).checksum =
      md5Hex (stringifyCompact (Json.obj [("primary", Json.str "#16a34a")])) ∧
    ("templates/" ++ "canopy" ++ "/" ++ "colors" ++ ".json",
      stringifyIndent2 ((jget
        (Json.obj [("colors", Json.obj [("primary", Json.str "#16a34a")])])
        "colors").getD Json.null)) ∈
      templateWrittenFiles "canopy"
        (Json.obj [("colors", Json.obj [("primary", Json.str "#16a34a")])]) :=
  ⟨c9_group_checksum_vs_file.1 "canopy" "colors" _ _ rfl,
   c9_group_checksum_vs_file.2.1 "canopy" "colors" _ (by decide)⟩

/-! ## C7 -/

/-- C7: the index's `categories` is exactly the set of component
category values and its `dependencies` is exactly the set union of the
component dependency sets, emitted sorted and without duplicates. -/
theorem c7_index_exact_unions (lastUpdated : String)
    (components : List CompMeta) (templates : List TemplateMeta)
    (providers : List ProviderMeta) (tokens : List TokenMeta) :
    (∀ x : String,
      x ∈ (buildRegistryIndex lastUpdated components templates providers
          tokens).categories ↔ ∃ c ∈ components, c.category = x) ∧
    (∀ x : String,
      x ∈ (buildRegistryIndex lastUpdated components templates providers
          tokens).dependencies ↔ ∃ c ∈ components, x ∈ c.dependencies) ∧
    List.Sorted (fun a b => a ≤ b)
      (buildRegistryIndex lastUpdated components templates providers
        tokens).dependencies ∧
    (buildRegistryIndex lastUpdated components templates providers
      tokens).dependencies.Nodup := by
  refine ⟨?_, ?_, ?_, ?_⟩
  · intro x
    show x ∈ dedupFirst (components.map (fun c => c.category)) ↔ _
    rw [mem_dedupFirst]
    simp [List.mem_map, eq_comm]
  · intro x
    show x ∈ sortStrings
      (dedupFirst (components.flatMap (fun c => c.dependencies))) ↔ _
    rw [sortStrings, List.mem_insertionSort, mem_dedupFirst]
    simp [List.mem_flatMap]
  · show List.Sorted _ (sortStrings _)
    exact List.sorted_insertionSort _ _
  · show (sortStrings _).Nodup
    exact ((List.perm_insertionSort _ _).nodup_iff).mpr (nodup_dedupFirst _)

/-! ## C4 -/

theorem append_slash_inj (n1 : List Char) :
    ∀ (n2 t1 t2 : List Char), ¬ '/' ∈ n1 → ¬ '/' ∈ n2 →
      n1 ++ '/' :: t1 = n2 ++ '/' :: t2 → n1 = n2 ∧ t1 = t2 := by
  induction n1 with
  | nil =>
    intro n2 t1 t2 _ h2 h
    cases n2 with
    | nil => simpa using h
    | cons b bs =>
      rw [List.nil_append] at h
      have hb : '/' = b := (List.cons.injEq _ _ _ _ ▸ h).1
      exact absurd (hb ▸ List.mem_cons_self b bs) h2
  | cons a as ih =>
    intro n2 t1 t2 h1 h2 h
    cases n2 with
    | nil =>
      rw [List.nil_append] at h
      have ha : a = '/' := (List.cons.injEq _ _ _ _ ▸ h).1
      exact absurd (ha ▸ List.mem_cons_self a as) h1
    | cons b bs =>
      have hab : a = b := (List.cons.injEq _ _ _ _ ▸ h).1
      have ht : as ++ '/' :: t1 = bs ++ '/' :: t2 :=
        (List.cons.injEq _ _ _ _ ▸ h).2
      have h1' : ¬ '/' ∈ as := fun hm => h1 (List.mem_cons_of_mem a hm)
      have h2' : ¬ '/' ∈ bs := fun hm => h2 (List.mem_cons_of_mem b hm)
      obtain ⟨e1, e2⟩ := ih bs t1 t2 h1' h2' ht
      exact ⟨by rw [hab, e1], e2⟩

theorem string_toList_inj (s t : String) (h : s.toList = t.toList) :
    s = t := by
  cases s
  cases t
  exact congrArg String.mk (by simpa [String.toList] using h)

theorem templatePath_inj (n1 n2 : String) (h1 : ¬ '/' ∈ n1.toList)
    (h2 : ¬ '/' ∈ n2.toList)
    (h : componentTemplatePath n1 = componentTemplatePath n2) :
    n1 = n2 := by
  have h0 : "components/".toList ++
        (n1.toList ++ ('/' :: "component.tsx.template".toList)) =
      "components/".toList ++
        (n2.toList ++ ('/' :: "component.tsx.template".toList)) :=
    congrArg String.toList h
  obtain ⟨e, -⟩ := append_slash_inj n1.toList n2.toList _ _ h1 h2
    (List.append_cancel_left h0)
  exact string_toList_inj _ _ e

theorem dirPath_ne_templatePath (n1 n2 : String)
    (h1 : ¬ '/' ∈ n1.toList) :
    componentDirPath n1 ≠ componentTemplatePath n2 := by
  intro h
  have h0 : "components/".toList ++ n1.toList =
      "components/".toList ++
        (n2.toList ++ ('/' :: "component.tsx.template".toList)) :=
    congrArg String.toList h
  have h' := List.append_cancel_left h0
  apply h1
  rw [h']
  exact List.mem_append_right _ (List.mem_cons_self _ _)

theorem metadataPath_ne_templatePath (n1 n2 : String)
    (h1 : ¬ '/' ∈ n1.toList) (h2 : ¬ '/' ∈ n2.toList) :
    componentMetadataPath n1 ≠ componentTemplatePath n2 := by
  intro h
  have h0 : "components/".toList ++
        (n1.toList ++ ('/' :: "component.json".toList)) =
      "components/".toList ++
        (n2.toList ++ ('/' :: "component.tsx.template".toList)) :=
    congrArg String.toList h
  obtain ⟨-, he⟩ := append_slash_inj n1.toList n2.toList _ _ h1 h2
    (List.append_cancel_left h0)
  exact absurd he (by decide)

theorem mem_builtComponentPaths (files : List (String × String))
    (e : String × String) (he : e ∈ componentEntries files) :
    componentDirPath e.1 ∈ builtComponentPaths files ∧
    componentTemplatePath e.1 ∈ builtComponentPaths files ∧
    componentMetadataPath e.1 ∈ builtComponentPaths files := by
  refine ⟨?_, ?_, ?_⟩ <;> exact List.mem_flatMap.mpr ⟨e, he, by simp⟩

theorem componentErrors_entry (files : List (String × String))
    (x e : String × String)
    (hx : x ∈ componentEntries files) (he : e ∈ componentEntries files)
    (hlce : lowerStr e.1 = e.1)
    (hnse : ¬ '/' ∈ e.1.toList) (hnsx : ¬ '/' ∈ x.1.toList) :
    componentErrors (createComponentMetadata e.1 (analyzeComponentFile e.2))
      (fsDelete (componentTemplatePath x.1)
        (fsOfPaths (builtComponentPaths files))) =
      (if e.1 = x.1
       then ["Component template missing: " ++ e.1 ++
             "/component.tsx.template"]
       else []) := by
  have hname :
      (createComponentMetadata e.1 (analyzeComponentFile e.2)).name = e.1 :=
    hlce
  have hmem := mem_builtComponentPaths files e he
  have hfe : (requiredComponentFields.filter
      fun f => !componentJsonKeys.contains f) = [] := by decide
  have hdir : fsDelete (componentTemplatePath x.1)
      (fsOfPaths (builtComponentPaths files)) (componentDirPath e.1) = true := by
    rw [fsDelete, if_neg (dirPath_ne_templatePath e.1 x.1 hnse)]
    exact (contains_true_iff _ _).mpr hmem.1
  have hmeta : fsDelete (componentTemplatePath x.1)
      (fsOfPaths (builtComponentPaths files))
      (componentMetadataPath e.1) = true := by
    rw [fsDelete, if_neg (metadataPath_ne_templatePath e.1 x.1 hnse hnsx)]
    exact (contains_true_iff _ _).mpr hmem.2.2
  by_cases hex : e.1 = x.1
  · have htmpl : fsDelete (componentTemplatePath x.1)
        (fsOfPaths (builtComponentPaths files))
        (componentTemplatePath e.1) = false := by
      rw [fsDelete, if_pos (by rw [hex])]
    simp only [componentErrors, componentFieldErrors, hfe, List.map_nil,
      List.nil_append, componentFileErrors, hname, hdir, htmpl, hmeta,
      if_pos hex, Bool.not_true, Bool.not_false, if_neg, Bool.false_eq_true,
      if_false, if_true]
    simp
  · have htmpl : fsDelete (componentTemplatePath x.1)
        (fsOfPaths (builtComponentPaths files))
        (componentTemplatePath e.1) = true := by
      rw [fsDelete, if_neg (fun hp => hex (templatePath_inj e.1 x.1 hnse hnsx hp))]
      exact (contains_true_iff _ _).mpr hmem.2.1
    simp only [componentErrors, componentFieldErrors, hfe, List.map_nil,
      List.nil_append, componentFileErrors, hname, hdir, htmpl, hmeta,
      if_neg hex]
    simp

theorem flatMap_single_key {β : Type} (key : String) (msg : List String) :
    ∀ (l : List (String × β)) (f : String × β → List String),
      key ∈ l.map Prod.fst → (l.map Prod.fst).Nodup →
      (∀ e ∈ l, f e = if e.1 = key then msg else []) →
      l.flatMap f = msg := by
  intro l
  induction l with
  | nil =>
    intro f h _ _
    simp at h
  | cons a t ih =>
    intro f hmem hnd hf
    rw [List.flatMap_cons]
    by_cases ha : a.1 = key
    · rw [hf a (List.mem_cons_self a t), if_pos ha]
      have ht : t.flatMap f = [] := by
        rw [List.flatMap_eq_nil_iff]
        intro e heT
        rw [hf e (List.mem_cons_of_mem a heT)]
        refine if_neg fun hek => ?_
        rw [List.map_cons] at hnd
        rcases List.nodup_cons.mp hnd with ⟨hna, -⟩
        exact hna ((hek.trans ha.symm) ▸ List.mem_map_of_mem Prod.fst heT)
      rw [ht, List.append_nil]
    · rw [hf a (List.mem_cons_self a t), if_neg ha, List.nil_append]
      rw [List.map_cons] at hnd hmem
      rcases List.nodup_cons.mp hnd with ⟨-, hndt⟩
      have hmem' : key ∈ t.map Prod.fst := by
        rcases List.mem_cons.mp hmem with h | h
        · exact absurd h.symm ha
        · exact h
      exact ih f hmem' hndt (fun e he => hf e (List.mem_cons_of_mem a he))

/-- C4: after a build over a tree of distinct, lowercase, slash-free
component names, deleting exactly one component's on-disk template file
makes the validator report exactly the one missing-file defect for that
component and none for any other (every remaining component is still
checked: the defect list is computed over all records), and the overall
verdict is failure. -/
theorem c4_validator_reports_single_missing_template
    (files : List (String × String)) (x : String × String)
    (hx : x ∈ componentEntries files)
    (hnd : ((componentEntries files).map Prod.fst).Nodup)
    (hlc : ∀ e ∈ componentEntries files, lowerStr e.1 = e.1)
    (hns : ∀ e ∈ componentEntries files, ¬ '/' ∈ e.1.toList) :
    (validateComponents (buildComponentRecords files)
      (fsDelete (componentTemplatePath x.1)
        (fsOfPaths (builtComponentPaths files)))).errors =
      ["Component template missing: " ++ x.1 ++
       "/component.tsx.template"] ∧
    (validateComponents (buildComponentRecords files)
      (fsDelete (componentTemplatePath x.1)
        (fsOfPaths (builtComponentPaths files)))).valid = false := by
  have herr : (validateComponents (buildComponentRecords files)
      (fsDelete (componentTemplatePath x.1)
        (fsOfPaths (builtComponentPaths files)))).errors =
      ["Component template missing: " ++ x.1 ++
       "/component.tsx.template"] := by
    show (buildComponentRecords files).flatMap _ = _
    rw [buildComponentRecords, List.flatMap_map]
    refine flatMap_single_key x.1 _ (componentEntries files) _
      (List.mem_map_of_mem Prod.fst hx) hnd (fun e he => ?_)
    rw [componentErrors_entry files x e hx he (hlc e he) (hns e he)
      (hns x hx)]
    by_cases h : e.1 = x.1
    · rw [if_pos h, if_pos h, h]
    · rw [if_neg h, if_neg h]
  refine ⟨herr, ?_⟩
  have hv : (validateComponents (buildComponentRecords files)
      (fsDelete (componentTemplatePath x.1)
        (fsOfPaths (builtComponentPaths files)))).valid =
      ((validateComponents (buildComponentRecords files)
        (fsDelete (componentTemplatePath x.1)
          (fsOfPaths (builtComponentPaths files)))).errors).isEmpty := rfl
  rw [hv, herr]
  rfl

/-- C4 witness: a two-component tree, the `button` template file
deleted, yields exactly the one defect. -/
theorem c4_validator_witness :
    (validateComponents
      (buildComponentRecords
        [("button.tsx", "export const Button = 0;"),
         ("card.tsx", "export const Card = 0;")])
      (fsDelete (componentTemplatePath "button")
        (fsOfPaths (builtComponentPaths
          [("button.tsx", "export const Button = 0;"),
           ("card.tsx", "export const Card = 0;")])))).errors =
      ["Component template missing: " ++ "button" ++
       "/component.tsx.template"] :=
  (c4_validator_reports_single_missing_template
    [("button.tsx", "export const Button = 0;"),
     ("card.tsx", "export const Card = 0;")]
    ("button", "export const Button = 0;")
    (by decide) (by decide) (by decide) (by decide)).1
